import Mathlib

/-!
A shallow embedding of the pufferfish interpreter (src/parser.rs, src/program.rs)
and proofs about it.

Conventions of the embedding:
* Rust `usize`/`u8` values are `Nat`; stack values (`isize`) are `Int`.
* The operand stack `Vec<isize>` is a `List Int` whose HEAD is the TOP of the
  Vec (Rust pushes/pops at the end; we push/pop at the head).
* A Rust panic (failed `assert!`, `unwrap` of `None`, out-of-range arithmetic
  on a `bounded_integer` type, `slice::swap_with_slice` on slices of different
  lengths, `unimplemented!`, `unreachable!`) is modelled by `Option`/`StepResult.panic`.
* `Grid<usize>` tank grids are row-major flattened `List Nat` of length 20
  (5 rows x 4 columns), matching `Grid::into_vec`/`Grid::from_vec`.
-/

namespace Pufferfish

/-- `Direction` from src/program.rs (lines 36-41). -/
inductive Direction where
  | up
  | left
  | right
  | down
deriving DecidableEq, Repr

/-- `InstructionPointer(IpRow, IpCol)` from src/program.rs: a pair of
bounded integers, row in [0,4], col in [0,3].  `Fin 5` / `Fin 4` carry the
same invariant. -/
structure InstructionPointer where
  row : Fin 5
  col : Fin 4
deriving DecidableEq, Repr

/-- `InstructionPointer::move_dir` (src/program.rs lines 44-51).
`bounded_integer`'s `wrapping_add`/`wrapping_sub` wrap around the range
[MIN, MAX]; on `Fin` this is exactly the modular `+`/`-`. -/
def InstructionPointer.move_dir (self : InstructionPointer) (rhs : Direction) :
    InstructionPointer :=
  match rhs with
  | .up => ⟨self.row - 1, self.col⟩
  | .down => ⟨self.row + 1, self.col⟩
  | .left => ⟨self.row, self.col - 1⟩
  | .right => ⟨self.row, self.col + 1⟩

/-- `CycleInstruction` from src/program.rs (lines 22-30): a `bounded_integer!`
enum over the range [0,3], variants in declaration order. -/
inductive CycleInstruction where
  | Subtract
  | Swap
  | Dup
  | Drop
deriving DecidableEq, Repr

/-- The numeric value of a `CycleInstruction` (the `bounded_integer!` enum
assigns 0,1,2,3 in declaration order; `Default` is the value 0, `Subtract`). -/
def CycleInstruction.val : CycleInstruction → Nat
  | .Subtract => 0
  | .Swap => 1
  | .Dup => 2
  | .Drop => 3

/-- `cycle_instr += 1` (src/program.rs line 199).  The `bounded_integer`
crate's plain `Add`/`AddAssign` panic when the result leaves the range
(only the dedicated `wrapping_*` methods wrap; `move_dir` uses those, this
line does not), so `Drop + 1 = 4` is out of [0,3] and panics: `none`. -/
def CycleInstruction.addOne : CycleInstruction → Option CycleInstruction
  | .Subtract => some .Swap
  | .Swap => some .Dup
  | .Dup => some .Drop
  | .Drop => none

/-- `Tank` from src/program.rs (lines 60-66).  The grid is the row-major
flattening of the 5x4 `Grid<usize>`; the name is kept as a `List Char`. -/
structure Tank where
  grid : List Nat
  name : List Char
  cycle_instr : CycleInstruction
  acc : Nat
deriving DecidableEq, Repr

instance : Inhabited Tank := ⟨⟨[], [], .Subtract, 0⟩⟩

/-- `Tank::new` (src/program.rs lines 69-76): given name and grid, with
defaulted cycle instruction (`Subtract`, value 0) and accumulator 0. -/
def Tank.new (name : List Char) (grid : List Nat) : Tank :=
  ⟨grid, name, .Subtract, 0⟩

/-- `Tank`'s `AddAssign` (src/program.rs lines 88-94): add the right grid
cell-wise into the left grid (same 5x4 shape on both sides). -/
def Tank.add (self rhs : Tank) : Tank :=
  { self with grid := List.zipWith (· + ·) self.grid rhs.grid }

/-- `Program` from src/program.rs (lines 104-111).  The `Grid<Tank>` aquarium
is kept as its row-major flattened tank list together with its row and column
counts (`Grid::from_vec(tanks, width)` stores `width` columns and
`tanks.len() / width` rows).  The stack's head is the top. -/
structure Program where
  rows : Nat
  cols : Nat
  tanks : List Tank
  ftp : Nat × Nat
  ip : InstructionPointer
  ip_dir : Direction
  stack : List Int
  trampoline_set : Bool
deriving DecidableEq, Repr

/-- Row-major index of the current tank: `Grid<Tank>` indexing
`aquarium[(r, c)]` reads the backing vector at `r * cols + c`. -/
def Program.ftpIdx (p : Program) : Nat :=
  p.ftp.1 * p.cols + p.ftp.2

/-- `self.aquarium[self.ftp]` (read). -/
def Program.currentTank (p : Program) : Tank :=
  p.tanks.getD p.ftpIdx default

/-- `self.aquarium[self.ftp] = t` (write back one tank). -/
def Program.setTank (p : Program) (t : Tank) : Program :=
  { p with tanks := p.tanks.set p.ftpIdx t }

/-- The fetch of `Program::step` (src/program.rs line 276):
`self.aquarium[self.ftp][self.ip] % 10`, where `Tank`'s `Index` impl
(lines 96-102) reads `grid[(row, col)]`, i.e. flattened cell `row*4 + col`. -/
def Program.fetch (p : Program) : Nat :=
  p.currentTank.grid.getD (p.ip.row.val * 4 + p.ip.col.val) 0 % 10

/-- `Program::update_ip` (src/program.rs lines 139-141). -/
def Program.updateIp (p : Program) : Program :=
  { p with ip := p.ip.move_dir p.ip_dir }

/-- `Program::down` (src/program.rs lines 143-146). -/
def Program.down (p : Program) : Program :=
  Program.updateIp { p with ip_dir := .down }

/-- `Program::up` (src/program.rs lines 148-151). -/
def Program.up (p : Program) : Program :=
  Program.updateIp { p with ip_dir := .up }

/-- `Program::right` (src/program.rs lines 153-156). -/
def Program.right (p : Program) : Program :=
  Program.updateIp { p with ip_dir := .right }

/-- `Program::left` (src/program.rs lines 158-161). -/
def Program.left (p : Program) : Program :=
  Program.updateIp { p with ip_dir := .left }

/-- `Program::push_acc` (src/program.rs lines 163-167): push the current
tank's accumulator onto the stack, then increment that accumulator.
Note: it does NOT call `update_ip`, and neither does the `5 =>` arm of
`Program::step`. -/
def Program.push_acc (p : Program) : Program :=
  let t := p.currentTank
  Program.setTank { p with stack := (t.acc : Int) :: p.stack } { t with acc := t.acc + 1 }

/-- `Program::cycle_sub` (src/program.rs lines 169-174): assert the stack has
at least two elements (panic otherwise: `none`), pop `b`, pop `a`, push
`a - b`. -/
def Program.cycle_sub : List Int → Option (List Int)
  | b :: a :: s => some ((a - b) :: s)
  | _ => none

/-- `Program::cycle_swap` (src/program.rs lines 176-180): assert at least two
elements (panic otherwise), then exchange the top two in place. -/
def Program.cycle_swap : List Int → Option (List Int)
  | x :: y :: s => some (y :: x :: s)
  | _ => none

/-- `Program::cycle_dup` (src/program.rs lines 182-186): assert the stack is
non-empty (panic otherwise), then push a copy of the top element. -/
def Program.cycle_dup : List Int → Option (List Int)
  | x :: s => some (x :: x :: s)
  | _ => none

/-- `Program::cycle_drop` (src/program.rs lines 188-190): `Vec::pop`, which
on an empty stack returns `None` and changes nothing — never a panic. -/
def Program.cycle_drop : List Int → List Int
  | [] => []
  | _ :: s => s

/-- Dispatch of `Program::cycle` (src/program.rs lines 193-198) on the
current tank's cycle instruction. -/
def Program.cycleOp : CycleInstruction → List Int → Option (List Int)
  | .Subtract, s => Program.cycle_sub s
  | .Drop, s => some (Program.cycle_drop s)
  | .Dup, s => Program.cycle_dup s
  | .Swap, s => Program.cycle_swap s

/-- `Program::cycle` (src/program.rs lines 192-201): apply the current tank's
cycle instruction to the stack, advance that tank's selector by
`cycle_instr += 1` (which panics past `Drop`, see
`CycleInstruction.addOne`), then `update_ip`. -/
def Program.cycle (p : Program) : Option Program :=
  let t := p.currentTank
  match Program.cycleOp t.cycle_instr p.stack with
  | none => none
  | some s =>
    match t.cycle_instr.addOne with
    | none => none
    | some ci =>
      some (Program.updateIp (Program.setTank { p with stack := s } { t with cycle_instr := ci }))

/-- `Program::tunnel` (src/program.rs lines 203-212): if the stack top exists
and is strictly positive clear the trampoline flag, otherwise set it; then
`update_ip`. -/
def Program.tunnel (p : Program) : Program :=
  let flag : Bool :=
    match p.stack with
    | a :: _ => !(a > 0)
    | [] => true
  Program.updateIp { p with trampoline_set := flag }

/-- `Program::hop` (src/program.rs lines 214-239): move the fish-tank pointer
one step in the current `ip_dir`, wrapping modulo the aquarium's row/column
count (`checked_sub(1).unwrap_or(count - 1)` going up/left, `+1` then `%`
going down/right).  Does not touch `ip`. -/
def Program.hopFtp (d : Direction) (rows cols : Nat) (ftp : Nat × Nat) : Nat × Nat :=
  match d with
  | .down => ((ftp.1 + 1) % rows, ftp.2)
  | .up => (if ftp.1 = 0 then rows - 1 else ftp.1 - 1, ftp.2)
  | .left => (ftp.1, if ftp.2 = 0 then cols - 1 else ftp.2 - 1)
  | .right => (ftp.1, (ftp.2 + 1) % cols)

/-- Result of one `step()` call: a normal transition (with the byte strings
written to standard output during the step), a `process::exit(0)` from the
`e` builtin, or a panic. -/
inductive StepResult where
  | ok (p : Program) (out : List (List Nat))
  | exit
  | panic
deriving DecidableEq, Repr

/-- The big-endian byte representation `isize::to_be_bytes` of a stack value
(8 bytes, two's complement) used by the `o` builtin (src/program.rs line 256). -/
def toBeBytes (v : Int) : List Nat :=
  (List.range 8).map fun i => ((v % (2 ^ 64)).toNat >>> (8 * (7 - i))) % 256

/-- `Program::call` (src/program.rs lines 241-273).  The stdin byte (`none`
at end of stream) and the randomly chosen direction of the `y` builtin are
passed in as oracles so that the step stays a function.
`name.chars().next().unwrap()` panics on an empty name; the `o` builtin pops
with `unwrap`, panicking on an empty stack before anything is written; an
unknown first letter hits `unimplemented!()`.  Every non-panicking branch
except `e` ends with `update_ip`. -/
def Program.call (inByte : Option Nat) (rnd : Direction) (p : Program) : StepResult :=
  match p.currentTank.name with
  | [] => .panic
  | c :: _ =>
    if c = 'e' then .exit
    else if c = 'i' then
      .ok (Program.updateIp
        { p with stack :=
            (match inByte with
             | none => (-1 : Int)
             | some b => (b : Int)) :: p.stack }) []
    else if c = 'o' then
      match p.stack with
      | [] => .panic
      | v :: s => .ok (Program.updateIp { p with stack := s }) [toBeBytes v]
    else if c = 'y' then
      .ok (Program.updateIp { p with ip_dir := rnd }) []
    else .panic

/-- `Program::step` (src/program.rs lines 275-314).  The match tests the arm
`0` first, then the guard `_ if self.trampoline_set`, then the arms `1`..`9`;
`_ => unreachable!()` can only be reached by a value `>= 10`, impossible
after `% 10`. -/
def Program.step (inByte : Option Nat) (rnd : Direction) (p : Program) : StepResult :=
  let c := p.fetch
  if c = 0 then .ok p.updateIp []
  else if p.trampoline_set then .ok (Program.updateIp { p with trampoline_set := false }) []
  else if c = 1 then .ok p.down []
  else if c = 2 then .ok p.up []
  else if c = 3 then .ok p.right []
  else if c = 4 then .ok p.left []
  else if c = 5 then .ok p.push_acc []
  else if c = 6 then
    match p.cycle with
    | some q => .ok q []
    | none => .panic
  else if c = 7 then .ok p.tunnel []
  else if c = 8 then .ok { p with ftp := Program.hopFtp p.ip_dir p.rows p.cols p.ftp } []
  else if c = 9 then Program.call inByte rnd p
  else .panic

/-- Chain up to `n` steps, stopping at the first exit or panic (the outputs
of intermediate steps are discarded; this is a test harness for concrete
runs). -/
def Program.stepChain (inByte : Option Nat) (rnd : Direction) :
    Nat → Program → StepResult
  | 0, p => .ok p []
  | n + 1, p =>
    match Program.step inByte rnd p with
    | .ok q _ => Program.stepChain inByte rnd n q
    | r => r

/-! ## The parser / tank builder (src/parser.rs) -/

/-- The apostrophe character, `'\x27'`. -/
def apostrophe : Char := Char.ofNat 39

/-- `is_valid_name_char` (src/parser.rs lines 16-18). -/
def is_valid_name_char (c : Char) : Bool :=
  c.isLower || c = apostrophe

/-- `name.contains("''")`: two consecutive apostrophes somewhere. -/
def hasDoubleApostrophe : List Char → Bool
  | c1 :: c2 :: rest =>
    (c1 = apostrophe && c2 = apostrophe) || hasDoubleApostrophe (c2 :: rest)
  | _ => false

/-- `is_valid_name` (src/parser.rs lines 20-22): no leading apostrophe, no
`''`, no trailing apostrophe. -/
def is_valid_name (name : List Char) : Bool :=
  !(name.head? = some apostrophe) && !hasDoubleApostrophe name
    && !(name.getLast? = some apostrophe)

/-- `byte_to_hex` (src/parser.rs lines 66-73); the panic on a non-hex byte is
`none`. -/
def byte_to_hex (c : Char) : Option Nat :=
  if '0' ≤ c ∧ c ≤ '9' then some (c.toNat - '0'.toNat)
  else if 'a' ≤ c ∧ c ≤ 'f' then some (c.toNat - 'a'.toNat + 10)
  else if 'A' ≤ c ∧ c ≤ 'F' then some (c.toNat - 'A'.toNat + 10)
  else none

/-- `data.extend((0..4).map(move |i| (val >> i) & 1).rev())`
(src/parser.rs line 52): the four bits of a nibble, most significant first. -/
def nibbleBits (val : Nat) : List Nat :=
  [(val >>> 3) &&& 1, (val >>> 2) &&& 1, (val >>> 1) &&& 1, val &&& 1]

/-- The grid cells produced by the mask loop of `Tank::from_mask_and_name`
(src/parser.rs lines 49-53). -/
def maskCells : List Char → Option (List Nat)
  | [] => some []
  | c :: cs =>
    match byte_to_hex c, maskCells cs with
    | some v, some rest => some (nibbleBits v ++ rest)
    | _, _ => none

/-- `Tank::from_mask_and_name` (src/parser.rs lines 48-55). -/
def Tank.from_mask_and_name (name : List Char) (mask : List Char) : Option Tank :=
  (maskCells mask).map fun cells => Tank.new name cells

/-- `Tank::swizzle` (src/parser.rs lines 57-63): flatten the grid, split the
20 cells at index 11 and `swap_with_slice` the two parts.
`slice::swap_with_slice` swaps the full contents of both slices — so the
result is the second part followed by the first — but it PANICS when the two
slices have different lengths, and `20.split_at(11)` yields lengths 11 and 9.
The panic is `none`. -/
def Tank.swizzle (t : Tank) : Option Tank :=
  let a := t.grid.take 11
  let b := t.grid.drop 11
  if a.length = b.length then some { t with grid := b ++ a } else none

/-- `FONT` (src/parser.rs lines 75-79). -/
def FONT : List String :=
  ["07997", "8e99e", "06886", "17997", "06bc6", "24e44", "79716", "88e99",
   "04044", "20224", "89ae9", "44442", "0edd9", "0e999", "06996", "e99e8",
   "79971", "0ac88", "07c3e", "4e442", "00997", "009a4", "09bb7", "0a44a",
   "99716", "0f24f"]

/-- One step of the `try_fold` body inside `populate_tanks`
(src/parser.rs lines 85-93): an apostrophe swizzles the accumulated tank,
any other byte `x` renders the glyph `FONT[(x - b'a') as usize]` (for
`x < b'a'` the `u8` subtraction overflows, and for an index past the table
the lookup is out of bounds — both panic: `none`) and adds it cell-wise. -/
def populateStep (t : Tank) (c : Char) : Option Tank :=
  if c = apostrophe then t.swizzle
  else if c.toNat < 'a'.toNat then none
  else
    match FONT.get? (c.toNat - 'a'.toNat) with
    | none => none
    | some mask => (Tank.from_mask_and_name [] mask.toList).map fun g => t.add g

/-- The per-name body of `populate_tanks` (src/parser.rs lines 84-93):
`try_fold` over the name's bytes starting from
`Tank::new(name, Grid::new(5, 4))` (a zero-filled 5x4 grid); the first
failure aborts the fold. -/
def populateTank (name : List Char) : Option Tank :=
  name.foldl (fun acc c => acc.bind fun t => populateStep t c)
    (some (Tank.new name (List.replicate 20 0)))

/-! ## Aquarium layout (src/program.rs lines 114-131) -/

/-- Modelled from the spec: the divisor enumeration of
`n.divisors_unordered()` comes from the `divisors_fixed` crate, whose source
is not part of this repository.  The spec documents the enumeration order as
the explicit tie-break — "enumerate divisors in ascending order and keep the
first minimal candidate" — so the divisors of `n` are listed here in
ascending order. -/
def divisorsAsc (n : Nat) : List Nat :=
  (List.range (n + 1)).filter fun d => decide (d ≠ 0 ∧ n % d = 0)

/-- The comparison
`((a as f64) - sqrt_n).abs().total_cmp(&((b as f64) - sqrt_n).abs()) == Less`
of `Program::build_aquarium` (line 120), carried out exactly over the
integers: for `a < b`, `|a - √n| < |b - √n|` iff `a + b > 2·√n` iff
`(a + b)² > 4·n`, and symmetrically for `b < a`.  (The `f64` square root is
modelled as the exact real one: `f64` has 53 bits of precision, and the only
exact ties `|a - √n| = |b - √n|` with `a ≠ b` occur when `n` is a perfect
square, where `sqrt` is exact.) -/
def distLt (n a b : Nat) : Bool :=
  if a < b then decide (4 * n < (a + b) ^ 2)
  else if b < a then decide ((a + b) ^ 2 < 4 * n)
  else false

/-- `Iterator::min_by` (line 120): the first element of the list that is
minimal under the comparator — the accumulator is replaced only when a later
element compares strictly less. -/
def minByDist (n : Nat) : List Nat → Option Nat
  | [] => none
  | x :: xs => some (xs.foldl (fun m y => if distLt n y m then y else m) x)

/-- The `height` computation of `Program::build_aquarium`
(src/program.rs lines 116-121); `none` is the `unwrap` panic on an empty
divisor list. -/
def aquariumHeight (n : Nat) : Option Nat :=
  minByDist n (divisorsAsc n)

/-- `Program::build_aquarium` (src/program.rs lines 114-131):
`width = n / height`, `Grid::from_vec(tanks, width)` (so `width` columns and
`n / width` rows), fish-tank pointer and instruction pointer at the origin,
direction `Right`, empty stack, trampoline clear. -/
def build_aquarium (tanks : List Tank) : Option Program :=
  (aquariumHeight tanks.length).map fun height =>
    let width := tanks.length / height
    { rows := tanks.length / width
      cols := width
      tanks := tanks
      ftp := (0, 0)
      ip := ⟨0, 0⟩
      ip_dir := .right
      stack := []
      trampoline_set := false }

/-! ## Concrete states used as test inputs -/

/-- A 1x1 aquarium whose single tank has cell value 5 at the origin. -/
def progPush : Program :=
  { rows := 1, cols := 1
    tanks := [⟨5 :: List.replicate 19 0, ['a'], .Subtract, 0⟩]
    ftp := (0, 0), ip := ⟨0, 0⟩, ip_dir := .right
    stack := [], trampoline_set := false }

/-- A 1x1 aquarium whose single tank has cell value 10 (instruction code 0)
at the origin, with the trampoline flag set. -/
def progTrampZero : Program :=
  { rows := 1, cols := 1
    tanks := [⟨10 :: List.replicate 19 0, ['a'], .Subtract, 0⟩]
    ftp := (0, 0), ip := ⟨0, 0⟩, ip_dir := .right
    stack := [], trampoline_set := true }

/-- A 1x1 aquarium whose single tank has cell value 7 at the origin, with the
trampoline flag set. -/
def progTrampSeven : Program :=
  { rows := 1, cols := 1
    tanks := [⟨7 :: List.replicate 19 0, ['a'], .Subtract, 0⟩]
    ftp := (0, 0), ip := ⟨0, 0⟩, ip_dir := .right
    stack := [], trampoline_set := true }

/-- A 1x1 aquarium whose single tank is filled with cell value 6, with a
four-element stack (top first: 1, 2, 3, 4). -/
def progCycle : Program :=
  { rows := 1, cols := 1
    tanks := [⟨List.replicate 20 6, ['a'], .Subtract, 0⟩]
    ftp := (0, 0), ip := ⟨0, 0⟩, ip_dir := .right
    stack := [1, 2, 3, 4], trampoline_set := false }

/-- A 2x3 aquarium of six tanks all filled with cell value 8, the fish-tank
pointer at the last column. -/
def progHop : Program :=
  { rows := 2, cols := 3
    tanks := List.replicate 6 ⟨List.replicate 20 8, ['a'], .Subtract, 0⟩
    ftp := (0, 2), ip := ⟨0, 0⟩, ip_dir := .right
    stack := [], trampoline_set := false }

/-- A 1x1 aquarium whose single tank is named `o` and has cell value 9 at
the origin, with an empty stack. -/
def progCallO : Program :=
  { rows := 1, cols := 1
    tanks := [⟨9 :: List.replicate 19 0, ['o'], .Subtract, 0⟩]
    ftp := (0, 0), ip := ⟨0, 0⟩, ip_dir := .right
    stack := [], trampoline_set := false }

/-! ## Theorems -/

/-- **C1** (code bug).  The claim says that on a cell ≡ 5 (mod 10) with the
trampoline clear, `step()` pushes the current tank's accumulator, increments
it, *and advances `ip` by one cell in `ip_dir`*.  The code does everything
except the advance: neither `Program::push_acc` (lines 163-167) nor the
`5 =>` arm of `step` (lines 297-299) calls `update_ip`, so `ip` stays put —
here the direction is `Right`, so the claim demands `ip = (0,1)`, but the
result keeps `ip = (0,0)` (all other effects are as claimed: 0 pushed,
accumulator now 1). -/
theorem C1_push_acc_does_not_advance_ip :
    Program.step none .up progPush =
      .ok { progPush with
              stack := [0]
              tanks := [⟨5 :: List.replicate 19 0, ['a'], .Subtract, 1⟩] } [] ∧
    progPush.ip.move_dir progPush.ip_dir ≠ progPush.ip := by
  constructor
  · decide
  · decide

/-- **C2** (counterexample).  The claim says a set trampoline flag skips the
next fetched instruction *whatever its code* and is cleared by that skip.
But the `0` arm of the `step` match (line 278) is tested *before* the
trampoline guard (line 281): on a cell of value 10 (code 0) with the flag
set, the no-op executes and the flag stays `true` — it is not cleared. -/
theorem C2_counterexample :
    progTrampZero.trampoline_set = true ∧
    Program.step none .up progTrampZero =
      .ok { progTrampZero with ip := ⟨0, 1⟩, trampoline_set := true } [] := by
  constructor
  · decide
  · decide

/-- **C2** (amended).  If the trampoline flag is set and the fetched code is
nonzero, `step()` skips the instruction: its effect does not occur, `ip`
advances one cell in `ip_dir`, the flag is cleared, and nothing else
changes.  If the fetched code is 0 the no-op arm runs instead: `ip`
advances and the flag remains set. -/
theorem C2_trampoline_skips_nonzero (i : Option Nat) (r : Direction)
    (p : Program) (h : p.trampoline_set = true) :
    (p.fetch ≠ 0 →
      Program.step i r p =
        .ok (Program.updateIp { p with trampoline_set := false }) []) ∧
    (p.fetch = 0 → Program.step i r p = .ok p.updateIp []) := by
  constructor
  · intro hc
    simp [Program.step, h, hc]
  · intro hc
    simp [Program.step, hc]

/-- Witness for the amended C2: a cell of value 7 with the flag set is
skipped (no tunnel effect), the pointer advances, the flag is cleared. -/
theorem C2_trampoline_skips_nonzero_witness :
    Program.step none .up progTrampSeven =
      .ok (Program.updateIp { progTrampSeven with trampoline_set := false }) [] := by
  have h := C2_trampoline_skips_nonzero none .up progTrampSeven (by decide)
  exact h.1 (by decide)

/-- **C3** (code bug).  The claim says tank construction succeeds for every
valid name, with apostrophes exchanging the two halves of the flattened
20-cell grid split at index 11.  `n'n` is a valid name (the repository's own
`test_name_validation` lists it as such), but `Tank::swizzle`
(src/parser.rs lines 57-63) calls `slice::swap_with_slice` on the two parts
of `split_at_mut(11)` — lengths 11 and 9 — which panics for slices of
different lengths, so construction of any apostrophe-containing name dies.
Letter-only names do fold glyphs cell-wise as claimed: `ab` yields exactly
the grid of the repository's `test_populate_tanks`. -/
theorem C3_swizzle_panics_on_valid_name :
    is_valid_name ['n', apostrophe, 'n'] = true ∧
    populateTank ['n', apostrophe, 'n'] = none ∧
    populateTank ['a', 'b'] =
      some ⟨[1, 0, 0, 0, 1, 2, 2, 1, 2, 0, 0, 2, 2, 0, 0, 2, 1, 2, 2, 1],
            ['a', 'b'], .Subtract, 0⟩ := by
  refine ⟨by decide, by decide, by decide⟩

/-- **C4** (code bug).  The claim says four consecutive executions of code 6
on one tank apply Subtract, Swap, Dup, Drop and return the selector to
Subtract by wraparound.  The first three executions do apply Subtract, Swap
and Dup (stack top-first: `[1,2,3,4]` → `[1,3,4]` → `[3,1,4]` →
`[3,3,1,4]`), but the fourth applies Drop and then panics at
`cycle_instr += 1` (line 199): the `bounded_integer` crate's plain
`AddAssign` panics when the result leaves the range, and `Drop` (3) plus 1
is outside `[0,3]` — there is no wraparound back to `Subtract`. -/
theorem C4_fourth_cycle_panics :
    Program.stepChain none .up 1 progCycle =
      .ok { progCycle with
              stack := [1, 3, 4]
              tanks := [⟨List.replicate 20 6, ['a'], .Swap, 0⟩]
              ip := ⟨0, 1⟩ } [] ∧
    Program.stepChain none .up 2 progCycle =
      .ok { progCycle with
              stack := [3, 1, 4]
              tanks := [⟨List.replicate 20 6, ['a'], .Dup, 0⟩]
              ip := ⟨0, 2⟩ } [] ∧
    Program.stepChain none .up 3 progCycle =
      .ok { progCycle with
              stack := [3, 3, 1, 4]
              tanks := [⟨List.replicate 20 6, ['a'], .Drop, 0⟩]
              ip := ⟨0, 3⟩ } [] ∧
    Program.stepChain none .up 4 progCycle = .panic := by
  refine ⟨by decide, by decide, by decide, by decide⟩

/-- **C6** (confirmed).  One pointer move wraps modulo the tank dimensions:
the row moves modulo 5 (up is minus one, i.e. plus four, modulo 5; down is
plus one modulo 5), the column modulo 4, the other coordinate is untouched,
and the result is again a `Fin 5`/`Fin 4` pair, so the move is total (no
panic — `wrapping_add`/`wrapping_sub` never panic) and never leaves the
grid; in particular Left from column 0 gives column 3, Up from row 0 gives
row 4, Right from column 3 gives column 0, and Down from row 4 gives
row 0. -/
theorem C6_move_dir_wraps :
    (∀ (r : Fin 5) (c : Fin 4),
      ((InstructionPointer.move_dir ⟨r, c⟩ .up).row.val = (r.val + 4) % 5 ∧
        (InstructionPointer.move_dir ⟨r, c⟩ .up).col = c) ∧
      ((InstructionPointer.move_dir ⟨r, c⟩ .down).row.val = (r.val + 1) % 5 ∧
        (InstructionPointer.move_dir ⟨r, c⟩ .down).col = c) ∧
      ((InstructionPointer.move_dir ⟨r, c⟩ .left).row = r ∧
        (InstructionPointer.move_dir ⟨r, c⟩ .left).col.val = (c.val + 3) % 4) ∧
      ((InstructionPointer.move_dir ⟨r, c⟩ .right).row = r ∧
        (InstructionPointer.move_dir ⟨r, c⟩ .right).col.val = (c.val + 1) % 4)) ∧
    (∀ r : Fin 5, InstructionPointer.move_dir ⟨r, 0⟩ .left = ⟨r, 3⟩) ∧
    (∀ c : Fin 4, InstructionPointer.move_dir ⟨0, c⟩ .up = ⟨4, c⟩) ∧
    (∀ r : Fin 5, InstructionPointer.move_dir ⟨r, 3⟩ .right = ⟨r, 0⟩) ∧
    (∀ c : Fin 4, InstructionPointer.move_dir ⟨4, c⟩ .down = ⟨0, c⟩) := by
  refine ⟨by decide, by decide, by decide, by decide, by decide⟩

/-- **C7** (confirmed).  On a cell ≡ 8 (mod 10) with the trampoline clear,
`step()` moves only the fish-tank pointer: one step in the current `ip_dir`,
wrapping modulo the aquarium's row count going up/down and its column count
going left/right (`checked_sub(1).unwrap_or(count - 1)` is the downward
wrap, `+1` then `%` the upward one).  The record update touches only `ftp`:
`ip`, `ip_dir`, the stack, the trampoline flag and every tank are
unchanged. -/
theorem C7_hop_moves_only_ftp (i : Option Nat) (r : Direction) (p : Program)
    (h1 : p.trampoline_set = false) (h2 : p.fetch = 8) :
    Program.step i r p =
      .ok { p with ftp :=
              match p.ip_dir with
              | .down => ((p.ftp.1 + 1) % p.rows, p.ftp.2)
              | .up => (if p.ftp.1 = 0 then p.rows - 1 else p.ftp.1 - 1, p.ftp.2)
              | .left => (p.ftp.1, if p.ftp.2 = 0 then p.cols - 1 else p.ftp.2 - 1)
              | .right => (p.ftp.1, (p.ftp.2 + 1) % p.cols) } [] := by
  cases hd : p.ip_dir <;> simp [Program.step, Program.hopFtp, h1, h2, hd]

/-- Witness for C7: in the 2x3 hop aquarium, moving right from the last
column wraps the fish-tank pointer to column 0. -/
theorem C7_hop_moves_only_ftp_witness :
    Program.step none .up progHop = .ok { progHop with ftp := (0, 0) } [] := by
  have h := C7_hop_moves_only_ftp none .up progHop (by decide) (by decide)
  rw [h]
  decide

/-- **C8** (confirmed).  Subtract pops `b`, then `a`, then pushes `a - b`,
and panics (the failed `assert!` is `none`) unless the stack has at least
two elements; Swap likewise needs two; Dup needs one; Drop is total — it
removes the top element and does nothing on an empty stack.  The stack is
written top-first. -/
theorem C8_cycle_stack_ops :
    (∀ (a b : Int) (s : List Int),
      Program.cycle_sub (b :: a :: s) = some ((a - b) :: s)) ∧
    (∀ s : List Int, s.length < 2 → Program.cycle_sub s = none) ∧
    (∀ (x y : Int) (s : List Int),
      Program.cycle_swap (x :: y :: s) = some (y :: x :: s)) ∧
    (∀ s : List Int, s.length < 2 → Program.cycle_swap s = none) ∧
    (∀ (x : Int) (s : List Int), Program.cycle_dup (x :: s) = some (x :: x :: s)) ∧
    Program.cycle_dup ([] : List Int) = none ∧
    Program.cycle_drop ([] : List Int) = [] ∧
    (∀ (x : Int) (s : List Int), Program.cycle_drop (x :: s) = s) := by
  refine ⟨fun a b s => rfl, ?_, fun x y s => rfl, ?_, fun x s => rfl, rfl, rfl,
    fun x s => rfl⟩ <;>
  · intro s hs
    cases s with
    | nil => rfl
    | cons x t =>
      cases t with
      | nil => rfl
      | cons y u =>
        exact absurd hs (by simp)

/-- Witness for C8, at the stacks of the claim (written top-first: the Vec
`[5,3]` is the list `[3,5]`): Subtract turns it into `[2]`, Dup turns `[2]`
into `[2,2]`, Subtract and Swap underflow on a single element, Drop accepts
the empty stack. -/
theorem C8_cycle_stack_ops_witness :
    Program.cycle_sub [3, 5] = some [2] ∧
    Program.cycle_sub [5] = none ∧
    Program.cycle_swap [7] = none ∧
    Program.cycle_dup [2] = some [2, 2] ∧
    Program.cycle_drop ([] : List Int) = [] := by
  have h := C8_cycle_stack_ops
  exact ⟨(h.1 5 3 []).trans (by decide), h.2.1 [5] (by decide),
    h.2.2.2.1 [7] (by decide), h.2.2.2.2.1 2 [], h.2.2.2.2.2.2.1⟩

/-- `List.getD` agrees with a successful `List.get?`. -/
theorem getD_of_getQ {α : Type} (l : List α) (n : Nat) (u d : α)
    (h : l.get? n = some u) : l.getD n d = u := by
  induction l generalizing n with
  | nil => simp [List.get?] at h
  | cons a as ih =>
    cases n with
    | zero =>
      simp [List.get?] at h
      simp [List.getD, h]
    | succ m => exact ih m h

/-- Overwriting a list entry with a tank of the same grid does not change
the list of grids. -/
theorem map_grid_set (l : List Tank) (n : Nat) (t : Tank)
    (h : ∀ u, l.get? n = some u → u.grid = t.grid) :
    (l.set n t).map Tank.grid = l.map Tank.grid := by
  induction l generalizing n with
  | nil => rfl
  | cons a as ih =>
    cases n with
    | zero =>
      have ha := h a rfl
      simp [List.set, ha]
    | succ m =>
      simp only [List.set, List.map_cons]
      rw [ih m fun u hu => h u hu]

/-- `Program::setTank` with a tank whose grid is the current tank's grid
preserves all grids. -/
theorem setTank_map_grid (p : Program) (t : Tank)
    (h : t.grid = p.currentTank.grid) :
    (p.setTank t).tanks.map Tank.grid = p.tanks.map Tank.grid := by
  apply map_grid_set
  intro u hu
  unfold Program.currentTank at h
  rw [getD_of_getQ p.tanks p.ftpIdx u default hu] at h
  exact h.symm

/-- `Program::cycle` never writes a grid. -/
theorem cycle_map_grid (p q : Program) (h : p.cycle = some q) :
    q.tanks.map Tank.grid = p.tanks.map Tank.grid ∧
      q.rows = p.rows ∧ q.cols = p.cols := by
  simp only [Program.cycle] at h
  split at h
  · exact absurd h (by simp)
  · split at h
    · exact absurd h (by simp)
    · injection h with h1
      subst h1
      refine ⟨?_, rfl, rfl⟩
      exact setTank_map_grid { p with stack := _ } _ rfl

/-- `Program::call` never writes a grid. -/
theorem call_map_grid (i : Option Nat) (r : Direction) (p q : Program)
    (out : List (List Nat)) (h : Program.call i r p = .ok q out) :
    q.tanks.map Tank.grid = p.tanks.map Tank.grid ∧
      q.rows = p.rows ∧ q.cols = p.cols := by
  unfold Program.call at h
  split at h
  · injection h
  · split_ifs at h
    all_goals try (split at h)
    all_goals
      first
        | (injection h with h1 h2; subst h1; exact ⟨rfl, rfl, rfl⟩)
        | injection h

/-- `Program::push_acc` never writes a grid. -/
theorem push_acc_map_grid (p : Program) :
    p.push_acc.tanks.map Tank.grid = p.tanks.map Tank.grid := by
  unfold Program.push_acc
  exact setTank_map_grid { p with stack := _ } _ rfl

set_option maxHeartbeats 1600000 in
/-- **C9** (confirmed).  A `step()` that completes normally never writes any
tank's grid and never reshapes the aquarium: the list of grids (and the row
and column counts) after the step equal those before it, whatever the state;
only accumulators, cycle-instruction selectors, the two pointers, the
direction, the stack and the trampoline flag can change.  Applied along any
run from construction, the grids therefore always equal their
construction-time values. -/
theorem C9_grids_never_written (i : Option Nat) (r : Direction) (p q : Program)
    (out : List (List Nat)) (h : Program.step i r p = .ok q out) :
    q.tanks.map Tank.grid = p.tanks.map Tank.grid ∧
      q.rows = p.rows ∧ q.cols = p.cols := by
  simp only [Program.step] at h
  split_ifs at h
  -- the arms in fetch order: code 0, the trampoline skip, codes 1-4,
  -- push_acc (code 5), cycle (code 6), tunnel (7), hop (8), call (9)
  · injection h with h1 h2; subst h1; exact ⟨rfl, rfl, rfl⟩
  · injection h with h1 h2; subst h1; exact ⟨rfl, rfl, rfl⟩
  · injection h with h1 h2; subst h1; exact ⟨rfl, rfl, rfl⟩
  · injection h with h1 h2; subst h1; exact ⟨rfl, rfl, rfl⟩
  · injection h with h1 h2; subst h1; exact ⟨rfl, rfl, rfl⟩
  · injection h with h1 h2; subst h1; exact ⟨rfl, rfl, rfl⟩
  · injection h with h1 h2
    subst h1
    exact ⟨push_acc_map_grid p, rfl, rfl⟩
  · cases hcy : p.cycle with
    | none => rw [hcy] at h; injection h
    | some q' =>
      rw [hcy] at h
      injection h with h1 h2
      subst h1
      exact cycle_map_grid p q' hcy
  · injection h with h1 h2; subst h1; exact ⟨rfl, rfl, rfl⟩
  · injection h with h1 h2; subst h1; exact ⟨rfl, rfl, rfl⟩
  · exact call_map_grid i r p q out h

/-- Witness for C9: the push step of `progPush` keeps the single tank's
grid. -/
theorem C9_grids_never_written_witness :
    ({ progPush with
         stack := [0]
         tanks := [⟨5 :: List.replicate 19 0, ['a'], .Subtract, 1⟩] } :
        Program).tanks.map Tank.grid = progPush.tanks.map Tank.grid ∧
      ({ progPush with
           stack := [0]
           tanks := [⟨5 :: List.replicate 19 0, ['a'], .Subtract, 1⟩] } :
          Program).rows = progPush.rows ∧
      ({ progPush with
           stack := [0]
           tanks := [⟨5 :: List.replicate 19 0, ['a'], .Subtract, 1⟩] } :
          Program).cols = progPush.cols :=
  C9_grids_never_written none .up progPush _ [] (by decide)

/-- **C10** (confirmed).  Executing the call builtin (code 9, trampoline
clear) in a tank whose name begins with `o` while the operand stack is empty
panics on `self.stack.pop().unwrap()` (src/program.rs line 255) — before
`to_be_bytes`/`print!` run, so nothing is written to standard output — a
stack-underflow abort beyond the Subtract/Swap/Dup ones of the spec's error
list. -/
theorem C10_call_o_empty_stack_panics (i : Option Nat) (r : Direction)
    (p : Program) (hname : p.currentTank.name.head? = some 'o')
    (hstack : p.stack = []) (htramp : p.trampoline_set = false)
    (hfetch : p.fetch = 9) :
    Program.step i r p = .panic := by
  have h9 : Program.step i r p = Program.call i r p := by
    simp [Program.step, htramp, hfetch]
  rw [h9]
  unfold Program.call
  cases hn : p.currentTank.name with
  | nil => rfl
  | cons c rest =>
    rw [hn] at hname
    simp at hname
    subst hname
    rw [hstack]
    simp +decide

/-- Witness for C10: the 1x1 aquarium with tank `o`, cell 9 and an empty
stack panics on its first step. -/
theorem C10_call_o_empty_stack_panics_witness :
    Program.step none .up progCallO = .panic :=
  C10_call_o_empty_stack_panics none .up progCallO (by decide) (by decide)
    (by decide) (by decide)

/-- `distLt` agrees with the strict comparison of the exact real distances
to `√n` (the comparison `build_aquarium` performs on `f64`). -/
theorem distLt_iff (n a b : Nat) :
    distLt n a b = true ↔
      |(a : ℝ) - Real.sqrt n| < |(b : ℝ) - Real.sqrt n| := by
  have hs0 : (0 : ℝ) ≤ Real.sqrt n := Real.sqrt_nonneg _
  have hsq : Real.sqrt n ^ 2 = (n : ℝ) := Real.sq_sqrt (by positivity)
  rw [← sq_lt_sq]
  rcases Nat.lt_trichotomy a b with hab | heq | hba
  · have habr : (a : ℝ) < b := by exact_mod_cast hab
    have hab0 : (0 : ℝ) ≤ (a : ℝ) + b := by positivity
    have hsum0 : (0 : ℝ) ≤ 2 * Real.sqrt n + ((a : ℝ) + b) := by positivity
    simp only [distLt, if_pos hab, decide_eq_true_eq]
    constructor
    · intro h
      have h4 : (4 : ℝ) * n < ((a : ℝ) + b) ^ 2 := by exact_mod_cast h
      have hgt : 2 * Real.sqrt n < (a : ℝ) + b := by nlinarith
      have hp : 0 < ((b : ℝ) - a) * ((a : ℝ) + b - 2 * Real.sqrt n) :=
        mul_pos (by linarith) (by linarith)
      nlinarith [hp]
    · intro h
      have hgt : 2 * Real.sqrt n < (a : ℝ) + b := by
        by_contra hc
        push_neg at hc
        have hp : 0 ≤ ((b : ℝ) - a) * (2 * Real.sqrt n - ((a : ℝ) + b)) :=
          mul_nonneg (by linarith) (by linarith)
        nlinarith [hp]
      have hp : 0 < ((a : ℝ) + b - 2 * Real.sqrt n) *
          ((a : ℝ) + b + 2 * Real.sqrt n) :=
        mul_pos (by linarith) (by linarith)
      have h4 : (4 : ℝ) * n < ((a : ℝ) + b) ^ 2 := by nlinarith [hp]
      exact_mod_cast h4
  · subst heq
    simp [distLt]
  · have hbar : (b : ℝ) < a := by exact_mod_cast hba
    have hab0 : (0 : ℝ) ≤ (a : ℝ) + b := by positivity
    simp only [distLt, if_neg (by omega : ¬a < b), if_pos hba,
      decide_eq_true_eq]
    constructor
    · intro h
      have h4 : ((a : ℝ) + b) ^ 2 < (4 : ℝ) * n := by exact_mod_cast h
      have hlt : (a : ℝ) + b < 2 * Real.sqrt n := by
        by_contra hc
        push_neg at hc
        have hp : 0 ≤ ((a : ℝ) + b - 2 * Real.sqrt n) *
            ((a : ℝ) + b + 2 * Real.sqrt n) :=
          mul_nonneg (by linarith) (by linarith)
        nlinarith [hp]
      have hp : 0 < ((a : ℝ) - b) * (2 * Real.sqrt n - ((a : ℝ) + b)) :=
        mul_pos (by linarith) (by linarith)
      nlinarith [hp]
    · intro h
      have hlt : (a : ℝ) + b < 2 * Real.sqrt n := by
        by_contra hc
        push_neg at hc
        have hp : 0 ≤ ((a : ℝ) - b) * (((a : ℝ) + b) - 2 * Real.sqrt n) :=
          mul_nonneg (by linarith) (by linarith)
        nlinarith [hp]
      have hp : 0 < (2 * Real.sqrt n - ((a : ℝ) + b)) *
          (2 * Real.sqrt n + ((a : ℝ) + b)) :=
        mul_pos (by linarith) (by linarith)
      have h4 : ((a : ℝ) + b) ^ 2 < (4 : ℝ) * n := by nlinarith [hp]
      exact_mod_cast h4

/-- The `min_by` fold returns an element of the candidate list (start
element included). -/
theorem foldl_min_mem (n : Nat) (xs : List Nat) (x : Nat) :
    xs.foldl (fun m y => if distLt n y m then y else m) x ∈ x :: xs := by
  induction xs generalizing x with
  | nil => simp [List.foldl]
  | cons y ys ih =>
    simp only [List.foldl_cons]
    by_cases hd : distLt n y x = true
    · rw [if_pos hd]
      rcases List.mem_cons.1 (ih y) with h | h
      · rw [h]; exact List.mem_cons_of_mem x (List.mem_cons_self y ys)
      · exact List.mem_cons_of_mem x (List.mem_cons_of_mem y h)
    · rw [if_neg hd]
      rcases List.mem_cons.1 (ih x) with h | h
      · rw [h]; exact List.mem_cons_self x _
      · exact List.mem_cons_of_mem x (List.mem_cons_of_mem y h)

/-- The `min_by` fold returns an element whose distance to `√n` is minimal
among the start element and the list. -/
theorem foldl_min_le (n : Nat) (xs : List Nat) (x : Nat) :
    ∀ z ∈ x :: xs,
      |((xs.foldl (fun m y => if distLt n y m then y else m) x : Nat) : ℝ) -
          Real.sqrt n| ≤ |(z : ℝ) - Real.sqrt n| := by
  induction xs generalizing x with
  | nil =>
    intro z hz
    rcases List.mem_cons.1 hz with h | h
    · subst h; simp [List.foldl]
    · cases h
  | cons y ys ih =>
    intro z hz
    simp only [List.foldl_cons]
    by_cases hd : distLt n y x = true
    · rw [if_pos hd]
      have hyx : |(y : ℝ) - Real.sqrt n| < |(x : ℝ) - Real.sqrt n| :=
        (distLt_iff n y x).1 hd
      rcases List.mem_cons.1 hz with h | h
      · subst h
        exact le_trans (ih y y (List.mem_cons_self y ys)) (le_of_lt hyx)
      · exact ih y z h
    · rw [if_neg hd]
      have hxy : |(x : ℝ) - Real.sqrt n| ≤ |(y : ℝ) - Real.sqrt n| :=
        le_of_not_lt fun hc => hd ((distLt_iff n y x).2 hc)
      rcases List.mem_cons.1 hz with h | h
      · rw [h]
        exact ih x x (List.mem_cons_self x ys)
      · rcases List.mem_cons.1 h with h1 | h1
        · subst h1
          exact le_trans (ih x x (List.mem_cons_self x ys)) hxy
        · exact ih x z (List.mem_cons_of_mem x h1)

/-- Two numbers at the same distance to `√n` coincide when one of them has
minimal distance among the positive divisors of `n`: an exact tie
`|b - √n| = |a - √n|` with `a ≠ b` forces `a + b = 2√n`, so `n` is a
perfect square whose root `k` divides `n` at distance 0, and minimality
drags both `a` and `b` onto `k`. -/
theorem dist_eq_imp_eq (n a b : Nat) (hn : 1 ≤ n)
    (hmin : ∀ d, 0 < d → d ∣ n →
      |(a : ℝ) - Real.sqrt n| ≤ |(d : ℝ) - Real.sqrt n|)
    (heq : |(b : ℝ) - Real.sqrt n| = |(a : ℝ) - Real.sqrt n|) : b = a := by
  by_cases hab : b = a
  · exact hab
  · exfalso
    rcases abs_eq_abs.1 heq with h | h
    · exact hab (by exact_mod_cast (by linarith : (b : ℝ) = a))
    · have hsum : (a : ℝ) + b = 2 * Real.sqrt n := by linarith
      have hsq : Real.sqrt n ^ 2 = (n : ℝ) := Real.sq_sqrt (by positivity)
      have hr : ((a : ℝ) + b) ^ 2 = 4 * n := by
        rw [hsum]
        linear_combination (4 : ℝ) * hsq
      have hm : (a + b) ^ 2 = 4 * n := by exact_mod_cast hr
      have h2 : 2 ∣ a + b :=
        Nat.Prime.dvd_of_dvd_pow Nat.prime_two
          (by rw [hm]; exact ⟨2 * n, by ring⟩)
      obtain ⟨k, hk⟩ := h2
      have hkn : k * k = n := by
        have h4 : 4 * (k * k) = 4 * n := by rw [← hm, hk]; ring
        omega
      have hk0 : 0 < k := by
        rcases Nat.eq_zero_or_pos k with rfl | h0
        · simp at hkn; omega
        · exact h0
      have hks : (k : ℝ) = Real.sqrt n := by
        rw [← hkn]
        push_cast
        exact (Real.sqrt_mul_self (by positivity)).symm
      have hle := hmin k hk0 ⟨k, hkn.symm⟩
      have hkz : |(k : ℝ) - Real.sqrt n| = 0 := by
        rw [hks]
        simp
      have hzero : |(a : ℝ) - Real.sqrt n| = 0 :=
        le_antisymm (hkz ▸ hle) (abs_nonneg _)
      have ha : (a : ℝ) = Real.sqrt n := by
        have := abs_eq_zero.1 hzero
        linarith
      have hb : (b : ℝ) = Real.sqrt n := by
        have := abs_eq_zero.1 (heq.trans hzero)
        linarith
      exact hab (by exact_mod_cast hb.trans ha.symm)

/-- **C5** (confirmed, with the divisor enumeration of the external
`divisors_fixed` crate modelled from the spec as ascending).  For `N ≥ 1`
tanks, `build_aquarium` picks as height the divisor `H` of `N` whose
distance `|H - √N|` is minimal (`min_by` keeps the first minimum, replacing
only on strictly smaller distance), with equal-distance ties resolved to the
smaller (first-enumerated) divisor — in fact an exact tie forces the tied
divisors to coincide — and width `N / H` with `H * (N / H) = N`; the choice
is a pure function of `N`, hence deterministic; concretely `N = 6` gives
height 2 (width 3) and `N = 9` gives height 3 (width 3). -/
theorem C5_aquarium_height (n : Nat) (h1 : 1 ≤ n) :
    aquariumHeight 6 = some 2 ∧ aquariumHeight 9 = some 3 ∧
    ∃ H, aquariumHeight n = some H ∧ 0 < H ∧ H ∣ n ∧ H * (n / H) = n ∧
      (∀ d, 0 < d → d ∣ n →
        |(H : ℝ) - Real.sqrt n| ≤ |(d : ℝ) - Real.sqrt n|) ∧
      (∀ d, 0 < d → d ∣ n →
        |(d : ℝ) - Real.sqrt n| = |(H : ℝ) - Real.sqrt n| → H ≤ d) := by
  refine ⟨by decide, by decide, ?_⟩
  have h1mem : 1 ∈ divisorsAsc n := by
    simp only [divisorsAsc, List.mem_filter, List.mem_range, decide_eq_true_eq]
    exact ⟨by omega, by omega, by omega⟩
  obtain ⟨x, xs, hxxs⟩ : ∃ x xs, divisorsAsc n = x :: xs := by
    cases hD : divisorsAsc n with
    | nil => rw [hD] at h1mem; cases h1mem
    | cons x xs => exact ⟨x, xs, rfl⟩
  refine ⟨xs.foldl (fun m y => if distLt n y m then y else m) x, ?_, ?_⟩
  · rw [aquariumHeight, hxxs]
    rfl
  · have hmem : xs.foldl (fun m y => if distLt n y m then y else m) x ∈
        divisorsAsc n := by
      rw [hxxs]; exact foldl_min_mem n xs x
    simp only [divisorsAsc, List.mem_filter, List.mem_range,
      decide_eq_true_eq] at hmem
    have hH0 : 0 < xs.foldl (fun m y => if distLt n y m then y else m) x := by
      omega
    have hHdvd : (xs.foldl (fun m y => if distLt n y m then y else m) x) ∣ n :=
      Nat.dvd_of_mod_eq_zero hmem.2.2
    have hminAll : ∀ d, 0 < d → d ∣ n →
        |((xs.foldl (fun m y => if distLt n y m then y else m) x : Nat) : ℝ) -
            Real.sqrt n| ≤ |(d : ℝ) - Real.sqrt n| := by
      intro d hd0 hdn
      have hdmem : d ∈ divisorsAsc n := by
        simp only [divisorsAsc, List.mem_filter, List.mem_range,
          decide_eq_true_eq]
        have hdle : d ≤ n := Nat.le_of_dvd (by omega) hdn
        obtain ⟨c, rfl⟩ := hdn
        exact ⟨by omega, by omega, Nat.mul_mod_right d c⟩
      rw [hxxs] at hdmem
      exact foldl_min_le n xs x d hdmem
    refine ⟨hH0, hHdvd, Nat.mul_div_cancel' hHdvd, hminAll, ?_⟩
    intro d hd0 hdn hdeq
    have hde := dist_eq_imp_eq n
      (xs.foldl (fun m y => if distLt n y m then y else m) x) d h1
      hminAll hdeq
    omega

/-- Witness for C5 at `N = 6`: six tanks give height 2 and width 3 (and the
general height characterization holds there). -/
theorem C5_aquarium_height_witness :
    1 ≤ 6 ∧
    (aquariumHeight 6 = some 2 ∧ aquariumHeight 9 = some 3 ∧
      ∃ H, aquariumHeight 6 = some H ∧ 0 < H ∧ H ∣ 6 ∧ H * (6 / H) = 6 ∧
        (∀ d : ℕ, 0 < d → d ∣ 6 →
          |(H : ℝ) - Real.sqrt ((6 : ℕ) : ℝ)| ≤
            |(d : ℝ) - Real.sqrt ((6 : ℕ) : ℝ)|) ∧
        (∀ d : ℕ, 0 < d → d ∣ 6 →
          |(d : ℝ) - Real.sqrt ((6 : ℕ) : ℝ)| =
              |(H : ℝ) - Real.sqrt ((6 : ℕ) : ℝ)| →
            H ≤ d)) :=
  ⟨by decide, C5_aquarium_height 6 (by decide)⟩

end Pufferfish
